import Mathlib

/-!
Verification of the credit-monitor core (src-tauri): time-series store
(database.rs), analytics engine (analytics.rs), alert engine
(notifications.rs) and the text-parsing heuristics of the extraction
engine (scraper.rs), shallowly embedded in Lean 4.

Conventions of the embedding:
* machine integers (`u32`, `i64`) are modelled as `Nat` / `Int`;
* `DateTime<Utc>` instants and `Instant` values are modelled as seconds
  (`Nat`); `chrono`'s `num_minutes` is truncating division by 60 and
  `Timelike::hour` is `t / 3600 % 24`;
* `f64` arithmetic of the analytics engine is modelled exactly, over `ℚ`
  where only field operations occur and over `ℝ` where `sqrt` occurs;
* fallible Rust calls are modelled with `Option` / `Except`.
-/

namespace CreditMonitor

/-! ## Time-series store (database.rs) -/

/-- `BalanceRecord` of database.rs (id and source label omitted: they carry
no information used by the verified operations). -/
structure BalanceRecord where
  amount : Nat
  timestamp : Nat
  deriving DecidableEq

/-- `UsageRecord` of database.rs (id omitted). -/
structure UsageRecord where
  start_balance : Nat
  end_balance : Nat
  usage_amount : Nat
  duration_minutes : Nat
  timestamp : Nat
  deriving DecidableEq

/-- The two tables of the store.  `balance_records` and `usage_records` are
kept newest first: the code always reads them through
`ORDER BY timestamp DESC` queries and only ever inserts rows stamped
`Utc::now()`, so insertion order (newest at the head) is timestamp order. -/
structure Database where
  balance_records : List BalanceRecord
  usage_records : List UsageRecord
  deriving DecidableEq

/-- `get_previous_balance_record`: `ORDER BY timestamp DESC LIMIT 1 OFFSET 1`
on the newest-first list is the element at index 1. -/
def get_previous_balance_record (records : List BalanceRecord) :
    Option BalanceRecord :=
  records.get? 1

/-- `duration.num_minutes().max(1) as u32` where
`duration = record.timestamp.signed_duration_since(previous.timestamp)`:
chrono's `num_minutes` truncates toward zero (`Int.div`). -/
def duration_minutes_of (prev_ts new_ts : Nat) : Nat :=
  (max (Int.tdiv ((new_ts : Int) - (prev_ts : Int)) 60) 1).toNat

/-- The body of the `if previous.amount > amount` block of
`insert_balance_record`: the usage record synthesized from the new snapshot
and the immediately preceding one, when the balance strictly decreased. -/
def derive_usage (record previous : BalanceRecord) : Option UsageRecord :=
  if previous.amount > record.amount then
    some { start_balance := previous.amount
           end_balance := record.amount
           usage_amount := previous.amount - record.amount
           duration_minutes := duration_minutes_of previous.timestamp record.timestamp
           timestamp := record.timestamp }
  else
    none

/-- `insert_balance_record`, parameterized by the outcome of the
`get_previous_balance_record` call (`.error` models a database error of the
lookup, which the code swallows with `if let Ok(Some(previous)) = ...`). -/
def insert_balance_record_with (db : Database) (amount now : Nat)
    (prevLookup : Except Unit (Option BalanceRecord)) :
    Database × BalanceRecord :=
  let record : BalanceRecord := { amount := amount, timestamp := now }
  let db1 : Database := { db with balance_records := record :: db.balance_records }
  match prevLookup with
  | .ok (some previous) =>
      match derive_usage record previous with
      | some usage => ({ db1 with usage_records := usage :: db1.usage_records }, record)
      | none => (db1, record)
  | _ => (db1, record)

/-- `insert_balance_record`: insert the snapshot, then look up the
immediately preceding snapshot (the lookup runs after the insert, so on the
newest-first list it is `get_previous_balance_record` of the extended list)
and derive a usage record from it. -/
def insert_balance_record (db : Database) (amount now : Nat) :
    Database × BalanceRecord :=
  insert_balance_record_with db amount now
    (.ok (get_previous_balance_record
      ({ amount := amount, timestamp := now } :: db.balance_records)))

/-! ## Alert engine (notifications.rs) -/

/-- `NotificationManager`: the `HashMap<String, Instant>` of last-fired
instants is modelled as an association list, newest entry first (`insert`
prepends, `lookup` takes the first hit, which matches the overwrite
semantics of `HashMap::insert`). -/
structure NotificationManager where
  last_notifications : List (String × Nat)
  notification_cooldown : Nat
  deriving DecidableEq

/-- `NotificationManager::new()`: empty map, 5-minute (300 s) cooldown. -/
def NotificationManager.new : NotificationManager :=
  { last_notifications := [], notification_cooldown := 300 }

/-- `send_notification_if_needed`.  `now` is the current instant;
`delivery_ok` is the outcome of the `send_notification` call (`false`
models `notification.show()` failing).  Returns the updated manager and
whether a notification was actually delivered.  The `message` argument
plays no role in the cooldown decision, exactly as in the code, where it
only feeds the delivered notification's body. -/
def send_notification_if_needed (m : NotificationManager)
    (notification_id message : String) (now : Nat) (delivery_ok : Bool) :
    NotificationManager × Bool :=
  let hit := m.last_notifications.lookup notification_id
  let fresh : Bool :=
    match hit with
    | some last_time => decide (¬ (now - last_time < m.notification_cooldown))
    | none => true
  if fresh then
    if delivery_ok then
      ({ m with last_notifications := (notification_id, now) :: m.last_notifications },
       true)
    else
      (m, false)
  else
    (m, false)

/-! ## Analytics engine (analytics.rs) -/

/-- `UsageTrend` of analytics.rs. -/
inductive UsageTrend where
  | Increasing
  | Decreasing
  | Stable
  | Insufficient
  deriving DecidableEq

/-- `calculate_usage_rates`: `(usage_rate_per_hour, usage_rate_per_day)`.
`f64` arithmetic on exact integer inputs is modelled over `ℚ`. -/
def calculate_usage_rates (usage_history : List UsageRecord) : ℚ × ℚ :=
  if usage_history.isEmpty then (0, 0)
  else
    let total_usage : Nat := (usage_history.map (·.usage_amount)).sum
    let total_minutes : Nat := (usage_history.map (·.duration_minutes)).sum
    if total_minutes = 0 then (0, 0)
    else
      let usage_rate_per_minute : ℚ := (total_usage : ℚ) / (total_minutes : ℚ)
      let usage_rate_per_hour : ℚ := usage_rate_per_minute * 60
      (usage_rate_per_hour, usage_rate_per_hour * 24)

/-- The four running sums `(sum_x, sum_y, sum_xy, sum_x2)` accumulated by
the `for (i, record)` loop of `calculate_trend`. -/
def trend_sums (balance_history : List BalanceRecord) : ℚ × ℚ × ℚ × ℚ :=
  balance_history.enum.foldl
    (fun acc p =>
      let x : ℚ := p.1
      let y : ℚ := p.2.amount
      (acc.1 + x, acc.2.1 + y, acc.2.2.1 + x * y, acc.2.2.2 + x * x))
    (0, 0, 0, 0)

/-- `calculate_trend` of analytics.rs. -/
def calculate_trend (balance_history : List BalanceRecord) : UsageTrend :=
  if balance_history.length < 3 then UsageTrend.Insufficient
  else
    let n : ℚ := balance_history.length
    let s := trend_sums balance_history
    let slope := (n * s.2.2.1 - s.1 * s.2.1) / (n * s.2.2.2 - s.1 * s.1)
    if slope < -1 then UsageTrend.Increasing
    else if slope > 1 then UsageTrend.Decreasing
    else UsageTrend.Stable

/-- The ordinary-least-squares slope of `ys` against the sequence index
0, 1, 2, … — the formula the spec names; `calculate_trend` is proved to
classify by this value. -/
def olsSlope (ys : List ℚ) : ℚ :=
  let n : ℚ := ys.length
  let sx : ℚ := ∑ i ∈ Finset.range ys.length, (i : ℚ)
  let sy : ℚ := ∑ i ∈ Finset.range ys.length, ys.getD i 0
  let sxy : ℚ := ∑ i ∈ Finset.range ys.length, (i : ℚ) * ys.getD i 0
  let sx2 : ℚ := ∑ i ∈ Finset.range ys.length, (i : ℚ) * (i : ℚ)
  (n * sxy - sx * sy) / (n * sx2 - sx * sx)

/-- The slope classification applied by `calculate_trend` once ≥ 3
snapshots are present. -/
def trend_classify (slope : ℚ) : UsageTrend :=
  if slope < -1 then UsageTrend.Increasing
  else if slope > 1 then UsageTrend.Decreasing
  else UsageTrend.Stable

/-- The per-usage-record rates of `calculate_efficiency_score`: records
with positive duration, rate = amount / duration.  `f64` arithmetic with a
square root is modelled over `ℝ`. -/
noncomputable def usage_rates (usage_history : List UsageRecord) : List ℝ :=
  (usage_history.filter (fun r => 0 < r.duration_minutes)).map
    (fun r => (r.usage_amount : ℝ) / (r.duration_minutes : ℝ))

/-- The `mean` of `calculate_efficiency_score`. -/
noncomputable def rates_mean (usage_history : List UsageRecord) : ℝ :=
  (usage_rates usage_history).sum / ((usage_rates usage_history).length : ℝ)

/-- The (population) `variance` of `calculate_efficiency_score`. -/
noncomputable def rates_variance (usage_history : List UsageRecord) : ℝ :=
  ((usage_rates usage_history).map
      (fun rate => (rate - rates_mean usage_history) ^ 2)).sum
    / ((usage_rates usage_history).length : ℝ)

/-- The `coefficient_of_variation` of `calculate_efficiency_score`:
`stdev / mean` when `mean > 0.0`, else `1.0`. -/
noncomputable def coefficient_of_variation (usage_history : List UsageRecord) : ℝ :=
  if 0 < rates_mean usage_history then
    Real.sqrt (rates_variance usage_history) / rates_mean usage_history
  else 1

/-- `calculate_efficiency_score` of analytics.rs:
`(1.0 - cv.min(1.0)).max(0.0) * 100.0`. -/
noncomputable def calculate_efficiency_score (usage_history : List UsageRecord) : ℝ :=
  if usage_history.isEmpty then 0
  else if (usage_rates usage_history).isEmpty then 0
  else max (1 - min (coefficient_of_variation usage_history) 1) 0 * 100

/-- `Timelike::hour` of a UTC instant given in seconds since the epoch. -/
def hour_of (t : Nat) : Nat := t / 3600 % 24

/-- The `hourly_usage` 24-bucket array of `calculate_peak_usage_hour`. -/
def hourly_usage (usage_history : List UsageRecord) : List Nat :=
  usage_history.foldl
    (fun arr r =>
      let hour := hour_of r.timestamp
      if hour < 24 then arr.set hour (arr.getD hour 0 + r.usage_amount) else arr)
    (List.replicate 24 0)

/-- Rust's `Iterator::max_by_key` on `(index, value)` pairs: of several
equally maximal elements, the LAST one is returned, so the running maximum
is replaced whenever the new key is ≥ the current one. -/
def max_by_key (l : List (Nat × Nat)) : Option (Nat × Nat) :=
  l.foldl
    (fun acc p =>
      match acc with
      | none => some p
      | some q => if q.2 ≤ p.2 then some p else some q)
    none

/-- `calculate_peak_usage_hour` of analytics.rs. -/
def calculate_peak_usage_hour (usage_history : List UsageRecord) : Option Nat :=
  if usage_history.isEmpty then none
  else (max_by_key (hourly_usage usage_history).enum).map (·.1)

/-! ## Extraction-engine text parsing (scraper.rs)

The regexes of `extract_number_from_text` / `extract_orb_balance_pattern`
use only literal characters, the classes `\d` and `\s`, concatenation,
greedy counted repetition and one capturing group each.  They are embedded
as a small regex AST with a fuel-bounded backtracking matcher whose
alternative order realizes the crate's leftmost-first, greedy semantics. -/

/-- Regex AST fragment used by scraper.rs.  `rep a lo hi` is greedy
`a{lo,hi}` (`hi = none` for unbounded). -/
inductive RE where
  | eps : RE
  | chr : Char → RE
  | digit : RE
  | space : RE
  | seq : RE → RE → RE
  | group : RE → RE
  | rep : RE → Nat → Option Nat → RE

/-- Backtracking matcher.  `RE.matches1 fuel r s` lists the outcomes of
matching `r` against a prefix of `s`, each as (remaining suffix, capture of
the single group if one was traversed), highest-priority first: greedy
repetitions prefer more iterations.  Fuel only bounds recursion depth;
every use supplies enough for the patterns at hand. -/
def RE.matches1 : Nat → RE → List Char → List (List Char × Option (List Char))
  | 0, _, _ => []
  | _ + 1, .eps, s => [(s, none)]
  | _ + 1, .chr c, s =>
      match s with
      | [] => []
      | x :: xs => if x = c then [(xs, none)] else []
  | _ + 1, .digit, s =>
      match s with
      | [] => []
      | x :: xs => if x.isDigit then [(xs, none)] else []
  | _ + 1, .space, s =>
      match s with
      | [] => []
      | x :: xs =>
          if x = ' ' ∨ x = '\t' ∨ x = '\n' ∨ x = '\r' then [(xs, none)] else []
  | fuel + 1, .seq a b, s =>
      (RE.matches1 fuel a s).flatMap fun p =>
        (RE.matches1 fuel b p.1).map fun q => (q.1, p.2 <|> q.2)
  | fuel + 1, .group a, s =>
      (RE.matches1 fuel a s).map fun p =>
        (p.1, some (s.take (s.length - p.1.length)))
  | fuel + 1, .rep a lo hi, s =>
      let stopHere : List (List Char × Option (List Char)) :=
        if lo = 0 then [(s, none)] else []
      let more :=
        if hi = some 0 then []
        else
          (RE.matches1 fuel a s).flatMap fun p =>
            if p.1.length < s.length then
              (RE.matches1 fuel (.rep a (lo - 1) (hi.map (· - 1))) p.1).map
                fun q => (q.1, p.2 <|> q.2)
            else []
      more ++ stopHere

/-- Fuel that is ample for the scraper's patterns on input `s`. -/
def reFuel (s : List Char) : Nat := 100 * (s.length + 1) + 1000

/-- Leftmost match (`Regex::captures`): scan start positions left to right,
at the first matching position take the matcher's highest-priority
outcome.  Returns (suffix after the match, capture of group 1). -/
def reFind (r : RE) : List Char → Option (List Char × Option (List Char))
  | [] => (RE.matches1 (reFuel []) r []).head?
  | x :: xs =>
      match (RE.matches1 (reFuel (x :: xs)) r (x :: xs)).head? with
      | some p => some p
      | none => reFind r xs

/-- Group 1 of the leftmost match, with the suffix after the match. -/
def reCaptureNext (r : RE) (s : List Char) : Option (List Char × List Char) :=
  (reFind r s).bind fun p =>
    match p.2 with
    | some cap => some (cap, p.1)
    | none => none

/-- `captures_iter` as used by scraper.rs: group-1 strings of successive
non-overlapping matches, each search resuming after the previous match
(every pattern iterated over consumes at least one character). -/
def reCaptures (r : RE) : Nat → List Char → List (List Char)
  | 0, _ => []
  | fuel + 1, s =>
      match reCaptureNext r s with
      | none => []
      | some (cap, rest) =>
          cap :: (if rest.length < s.length then reCaptures r fuel rest else [])

/-- `parse_number_string`: strip commas, then `str::parse::<u32>` (all
digits, non-empty, value below 2^32). -/
def parse_number_string (s : List Char) : Option Nat :=
  let cleaned := s.filter (· ≠ ',')
  if cleaned ≠ [] ∧ cleaned.all (·.isDigit) then
    let n := cleaned.foldl (fun acc c => 10 * acc + (c.toNat - '0'.toNat)) 0
    if n < 2 ^ 32 then some n else none
  else none

/-- A literal string as a regex. -/
def litRE (t : List Char) : RE :=
  t.foldr (fun c acc => RE.seq (.chr c) acc) .eps

/-- `\d{1,3}`. -/
def digits13 : RE := .rep .digit 1 (some 3)

/-- `(?:,\d{3})`. -/
def commaGroup3 : RE := .seq (.chr ',') (.rep .digit 3 (some 3))

/-- `\d{1,3}(?:,\d{3})*`. -/
def commaNumber : RE := .seq digits13 (.rep commaGroup3 0 none)

/-- `\s*`. -/
def spaces : RE := .rep .space 0 none

/-- `Credit balance:\s*(\d{1,3}(?:,\d{3})*)\s*User Messages`. -/
def orbPattern1 : RE :=
  .seq (litRE ("Credit balance:".toList))
    (.seq spaces
      (.seq (.group commaNumber) (.seq spaces (litRE ("User Messages".toList)))))

/-- `Credit balance:\s*(\d{1,3}(?:,\d{3})*)`. -/
def orbPattern2 : RE :=
  .seq (litRE ("Credit balance:".toList)) (.seq spaces (.group commaNumber))

/-- `(\d{1,3}(?:,\d{3})*)\s*User Messages`. -/
def orbPattern3 : RE :=
  .seq (.group commaNumber) (.seq spaces (litRE ("User Messages".toList)))

/-- `balance:\s*(\d{1,3}(?:,\d{3})*)`. -/
def orbPattern4 : RE :=
  .seq (litRE ("balance:".toList)) (.seq spaces (.group commaNumber))

/-- `(\d{1,3}(?:,\d{3})+)` — numbers with commas like 2,683. -/
def numberPattern1 : RE := .group (.seq digits13 (.rep commaGroup3 1 none))

/-- `(\d{4,})` — large numbers without commas. -/
def numberPattern2 : RE := .group (.rep .digit 4 none)

/-- `extract_orb_balance_pattern`: the four orb patterns tried in order;
the first whose leftmost match parses is returned, with NO range check on
the parsed value. -/
def extract_orb_balance_pattern (text : List Char) : Option Nat :=
  [orbPattern1, orbPattern2, orbPattern3, orbPattern4].findSome? fun pattern =>
    (reCaptureNext pattern text).bind fun pc => parse_number_string pc.1

/-- The `captures_iter` loop of `extract_number_from_text` for one generic
pattern: the first match that parses AND passes the sanity check
`number <= 1_000_000` is returned. -/
def sanity_filtered_first (pattern : RE) (text : List Char) : Option Nat :=
  (reCaptures pattern (text.length + 1) text).findSome? fun cap =>
    (parse_number_string cap).bind fun number =>
      if number ≤ 1000000 then some number else none

/-- `extract_number_from_text`: orb-specific patterns first (unbounded),
then the two generic numeric patterns under the sanity bound. -/
def extract_number_from_text (text : List Char) : Option Nat :=
  match extract_orb_balance_pattern text with
  | some balance => some balance
  | none =>
      match sanity_filtered_first numberPattern1 text with
      | some n => some n
      | none => sanity_filtered_first numberPattern2 text

/-! ## Theorems about the store and the alert engine -/

/-- C1: inserting a new balance creates a usage record if and only if the
immediately preceding snapshot's amount is strictly greater than the new
amount, and the created record's usage_amount equals exactly
previous amount minus new amount; on an increase or equal balance no usage
record is created. -/
theorem insert_balance_record_usage_iff (db : Database) (amount now : Nat)
    (prev : BalanceRecord) (hprev : db.balance_records.head? = some prev) :
    (amount < prev.amount →
      ∃ u, (insert_balance_record db amount now).1.usage_records
            = u :: db.usage_records ∧ u.usage_amount = prev.amount - amount) ∧
    (prev.amount ≤ amount →
      (insert_balance_record db amount now).1.usage_records = db.usage_records) := by
  have hp : get_previous_balance_record
      ({ amount := amount, timestamp := now } :: db.balance_records) = some prev := by
    simpa [get_previous_balance_record, List.get?_cons_succ, ← List.get?_zero]
      using hprev
  constructor
  · intro h
    refine ⟨{ start_balance := prev.amount, end_balance := amount,
              usage_amount := prev.amount - amount,
              duration_minutes := duration_minutes_of prev.timestamp now,
              timestamp := now }, ?_, rfl⟩
    simp [insert_balance_record, insert_balance_record_with, hp, derive_usage, h]
  · intro h
    simp [insert_balance_record, insert_balance_record_with, hp, derive_usage,
      Nat.not_lt.mpr h]

/-- C1 witness: a store whose latest snapshot is 1000; recording 700 creates
a usage record of exactly 300, recording 1000 creates none. -/
theorem insert_balance_record_usage_iff_witness :
    (700 < 1000 ∧
      ∃ u, (insert_balance_record
              { balance_records := [{ amount := 1000, timestamp := 0 }],
                usage_records := [] } 700 600).1.usage_records = u :: [] ∧
           u.usage_amount = 1000 - 700) := by
  refine ⟨by decide, ?_⟩
  exact (insert_balance_record_usage_iff
    { balance_records := [{ amount := 1000, timestamp := 0 }], usage_records := [] }
    700 600 { amount := 1000, timestamp := 0 } rfl).1 (by decide)

/-- C8: every usage record ever created by recording a balance has
duration_minutes ≥ 1 and usage_amount > 0 (records already present apart). -/
theorem insert_balance_record_usage_invariant (db : Database) (amount now : Nat)
    (u : UsageRecord)
    (hu : u ∈ (insert_balance_record db amount now).1.usage_records) :
    u ∈ db.usage_records ∨ (1 ≤ u.duration_minutes ∧ 0 < u.usage_amount) := by
  rcases hgp : get_previous_balance_record
      ({ amount := amount, timestamp := now } :: db.balance_records) with _ | prev
  · simp [insert_balance_record, insert_balance_record_with, hgp] at hu
    exact Or.inl hu
  · by_cases h : amount < prev.amount
    · simp [insert_balance_record, insert_balance_record_with, hgp,
        derive_usage, h] at hu
      rcases hu with hu | hu
      · refine Or.inr ?_
        subst hu
        refine ⟨?_, Nat.sub_pos_of_lt h⟩
        have h1 : (1 : Int) ≤ max (Int.tdiv ((now : Int) - (prev.timestamp : Int)) 60) 1 :=
          le_max_right _ _
        simp only [duration_minutes_of]
        omega
      · exact Or.inl hu
    · simp [insert_balance_record, insert_balance_record_with, hgp,
        derive_usage, h] at hu
      exact Or.inl hu

/-- C8 witness: two snapshots recorded within the same minute (30 s apart)
still yield duration_minutes ≥ 1 and a positive usage_amount. -/
theorem insert_balance_record_usage_invariant_witness :
    ({ start_balance := 1000, end_balance := 700, usage_amount := 300,
       duration_minutes := 1, timestamp := 30 } : UsageRecord) ∈
        (insert_balance_record
          { balance_records := [{ amount := 1000, timestamp := 0 }],
            usage_records := [] } 700 30).1.usage_records ∧
    (({ start_balance := 1000, end_balance := 700, usage_amount := 300,
        duration_minutes := 1, timestamp := 30 } : UsageRecord) ∈
          ([] : List UsageRecord) ∨
      (1 ≤ (1 : Nat) ∧ 0 < (300 : Nat))) := by
  refine ⟨by decide, ?_⟩
  exact insert_balance_record_usage_invariant
    { balance_records := [{ amount := 1000, timestamp := 0 }], usage_records := [] }
    700 30
    { start_balance := 1000, end_balance := 700, usage_amount := 300,
      duration_minutes := 1, timestamp := 30 }
    (by decide)

/-- C10: if the lookup of the immediately preceding snapshot returns an
error after the new snapshot was written, the insertion still succeeds,
returns the newly written snapshot, persists it, and creates no usage
record (the lookup error is swallowed). -/
theorem insert_balance_record_lookup_error_swallowed (db : Database)
    (amount now : Nat) :
    insert_balance_record_with db amount now (.error ()) =
      ({ db with balance_records :=
          { amount := amount, timestamp := now } :: db.balance_records },
       { amount := amount, timestamp := now }) := rfl

/-- C4: with the default 5-minute cooldown, triggering the same rule twice
within the window delivers exactly one notification (the second trigger is
suppressed regardless of its message text, the manager state unchanged),
and triggering again after the cooldown elapsed delivers a second one. -/
theorem alert_cooldown_dedup (notification_id msg1 msg2 msg3 : String)
    (t1 t2 t3 : Nat) (h12 : t2 - t1 < 300) (h13 : 300 ≤ t3 - t1) :
    (send_notification_if_needed NotificationManager.new notification_id msg1 t1 true).2
        = true ∧
    (send_notification_if_needed
        (send_notification_if_needed NotificationManager.new notification_id msg1 t1 true).1
        notification_id msg2 t2 true)
      = ((send_notification_if_needed NotificationManager.new notification_id msg1 t1 true).1,
         false) ∧
    (send_notification_if_needed
        (send_notification_if_needed NotificationManager.new notification_id msg1 t1 true).1
        notification_id msg3 t3 true).2
      = true := by
  have hstep : (send_notification_if_needed NotificationManager.new
      notification_id msg1 t1 true)
      = ({ last_notifications := [(notification_id, t1)],
           notification_cooldown := 300 }, true) := by
    simp [send_notification_if_needed, NotificationManager.new]
  refine ⟨by simp [hstep], ?_, ?_⟩
  · rw [hstep]
    simp [send_notification_if_needed, List.lookup, h12]
  · rw [hstep]
    simp [send_notification_if_needed, List.lookup, Nat.not_lt.mpr h13]

/-- C4 witness: rule "low_balance" fired at t=0 delivers; fired again at
t=10 (within the window, different message) it is suppressed; fired at
t=300 it delivers again. -/
theorem alert_cooldown_dedup_witness :
    (10 - 0 < 300 ∧ 300 ≤ 300 - 0) ∧
    ((send_notification_if_needed NotificationManager.new "low_balance" "a" 0 true).2
        = true ∧
     (send_notification_if_needed
        (send_notification_if_needed NotificationManager.new "low_balance" "a" 0 true).1
        "low_balance" "b" 10 true)
      = ((send_notification_if_needed NotificationManager.new "low_balance" "a" 0 true).1,
         false) ∧
     (send_notification_if_needed
        (send_notification_if_needed NotificationManager.new "low_balance" "a" 0 true).1
        "low_balance" "c" 300 true).2
      = true) :=
  ⟨⟨by decide, by decide⟩,
   alert_cooldown_dedup "low_balance" "a" "b" "c" 0 10 300 (by decide) (by decide)⟩

/-- C9: a failed delivery leaves the cooldown map unchanged (in general,
the map is updated only on successful delivery), so a subsequent trigger of
the same rule is not suppressed by a cooldown started by the failed
attempt. -/
theorem alert_failed_delivery_no_cooldown (m : NotificationManager)
    (notification_id msg1 msg2 : String) (t1 t2 : Nat)
    (hfree : m.last_notifications.lookup notification_id = none) :
    send_notification_if_needed m notification_id msg1 t1 false = (m, false) ∧
    (send_notification_if_needed
        (send_notification_if_needed m notification_id msg1 t1 false).1
        notification_id msg2 t2 true).2 = true ∧
    (∀ (m' : NotificationManager) (rule msg : String) (t : Nat),
      (send_notification_if_needed m' rule msg t false).1 = m') := by
  have hunchanged : ∀ (m' : NotificationManager) (rule msg : String) (t : Nat),
      send_notification_if_needed m' rule msg t false = (m', false) := by
    intro m' rule msg t
    simp only [send_notification_if_needed]
    split <;> rfl
  refine ⟨hunchanged m notification_id msg1 t1, ?_, fun m' rule msg t => by
    rw [hunchanged m' rule msg t]⟩
  rw [hunchanged m notification_id msg1 t1]
  simp [send_notification_if_needed, hfree]

/-- C9 witness: on a fresh manager the first delivery fails at t=0; the map
is unchanged and a retry at t=10 (well within the 5-minute window) is not
suppressed and delivers. -/
theorem alert_failed_delivery_no_cooldown_witness :
    send_notification_if_needed NotificationManager.new "high_usage" "x" 0 false
      = (NotificationManager.new, false) ∧
    (send_notification_if_needed
        (send_notification_if_needed NotificationManager.new "high_usage" "x" 0 false).1
        "high_usage" "y" 10 true).2 = true ∧
    (∀ (m' : NotificationManager) (rule msg : String) (t : Nat),
      (send_notification_if_needed m' rule msg t false).1 = m') :=
  alert_failed_delivery_no_cooldown NotificationManager.new
    "high_usage" "x" "y" 0 10 rfl

/-- C7: usage_rate_per_hour equals (sum usage_amount / sum duration_minutes)
× 60 and usage_rate_per_day equals that value × 24; both rates are 0 on an
empty window or zero total minutes, and usage_rate_per_hour is never
negative. -/
theorem calculate_usage_rates_spec :
    (∀ h : List UsageRecord,
        (calculate_usage_rates h).2 = (calculate_usage_rates h).1 * 24 ∧
        0 ≤ (calculate_usage_rates h).1) ∧
    (∀ h : List UsageRecord, h ≠ [] →
        (h.map (·.duration_minutes)).sum ≠ 0 →
        (calculate_usage_rates h).1
          = ((h.map (·.usage_amount)).sum : ℚ)
              / ((h.map (·.duration_minutes)).sum : ℚ) * 60) ∧
    (∀ h : List UsageRecord,
        h = [] ∨ (h.map (·.duration_minutes)).sum = 0 →
        calculate_usage_rates h = (0, 0)) := by
  refine ⟨fun h => ?_, fun h hne hsum => ?_, fun h hz => ?_⟩
  · unfold calculate_usage_rates
    split
    · norm_num
    · dsimp only
      split
      · norm_num
      · exact ⟨rfl, by positivity⟩
  · have h1 : h.isEmpty = false := by
      simpa [List.isEmpty_iff] using hne
    simp [calculate_usage_rates, h1, hsum]
    rfl
  · rcases hz with hz | hz
    · subst hz
      rfl
    · unfold calculate_usage_rates
      split
      · rfl
      · simp [hz]

/-- C7 witness: a single usage record of 300 credits over 60 minutes gives
usage_rate_per_hour = 300/60 × 60. -/
theorem calculate_usage_rates_spec_witness :
    (([({ start_balance := 1000, end_balance := 700, usage_amount := 300,
          duration_minutes := 60, timestamp := 0 } : UsageRecord)]
        : List UsageRecord) ≠ [] ∧
      (([({ start_balance := 1000, end_balance := 700, usage_amount := 300,
            duration_minutes := 60, timestamp := 0 } : UsageRecord)]
          : List UsageRecord).map (·.duration_minutes)).sum ≠ 0) ∧
    (calculate_usage_rates
        [{ start_balance := 1000, end_balance := 700, usage_amount := 300,
           duration_minutes := 60, timestamp := 0 }]).1
      = ((([({ start_balance := 1000, end_balance := 700, usage_amount := 300,
               duration_minutes := 60, timestamp := 0 } : UsageRecord)]
            : List UsageRecord).map (·.usage_amount)).sum : ℚ)
          / ((([({ start_balance := 1000, end_balance := 700, usage_amount := 300,
                   duration_minutes := 60, timestamp := 0 } : UsageRecord)]
                : List UsageRecord).map (·.duration_minutes)).sum : ℚ) * 60 :=
  ⟨⟨by decide, by decide⟩,
   calculate_usage_rates_spec.2.1 _ (by decide) (by decide)⟩

/-- The bucket array always has 24 entries: `List.set` preserves length. -/
lemma hourly_usage_foldl_length (l : List UsageRecord) (init : List Nat) :
    (l.foldl
      (fun arr r =>
        let hour := hour_of r.timestamp
        if hour < 24 then arr.set hour (arr.getD hour 0 + r.usage_amount) else arr)
      init).length = init.length := by
  induction l generalizing init with
  | nil => rfl
  | cons r t ih =>
      rw [List.foldl_cons, ih]
      dsimp only
      split <;> simp

lemma hourly_usage_length (l : List UsageRecord) : (hourly_usage l).length = 24 := by
  unfold hourly_usage
  rw [hourly_usage_foldl_length]
  simp

lemma getD_concat_self {α : Type} (l : List α) (y d : α) :
    (l ++ [y]).getD l.length d = y := by
  simp [List.getD_eq_getElem?_getD, List.getElem?_concat_length]

lemma getD_concat_lt {α : Type} (l : List α) (y d : α) (i : Nat) (hi : i < l.length) :
    (l ++ [y]).getD i d = l.getD i d := by
  simp [List.getD_eq_getElem?_getD, List.getElem?_append_left hi]

/-- `max_by_key` over an enumerated list returns an index attaining the
maximum value, and of several tying indices the LAST (largest) one. -/
lemma max_by_key_enum_spec (xs : List Nat) (hne : xs ≠ []) :
    ∃ h, max_by_key xs.enum = some (h, xs.getD h 0) ∧ h < xs.length ∧
      (∀ i, i < xs.length → xs.getD i 0 ≤ xs.getD h 0) ∧
      (∀ i, h < i → i < xs.length → xs.getD i 0 < xs.getD h 0) := by
  induction xs using List.reverseRecOn with
  | nil => cases hne rfl
  | append_singleton l y ih =>
      rcases eq_or_ne l [] with hl | hl
      · subst hl
        refine ⟨0, by rfl, by simp, ?_, ?_⟩
        · intro i hi
          have hi0 : i = 0 := by
            simp at hi
            omega
          subst hi0
          exact le_refl _
        · intro i hgt hi
          simp at hi
          omega
      · obtain ⟨h, hmax, hlt, hle, hafter⟩ := ih hl
        have henum : (l ++ [y]).enum = l.enum ++ [(l.length, y)] := by
          simp [List.enum_append]
        have hfold : max_by_key (l ++ [y]).enum
            = if l.getD h 0 ≤ y then some (l.length, y) else some (h, l.getD h 0) := by
          unfold max_by_key at hmax ⊢
          rw [henum, List.foldl_append, hmax]
          rfl
        by_cases hy : l.getD h 0 ≤ y
        · refine ⟨l.length, ?_, by simp, fun i hi => ?_, fun i hgt hi => ?_⟩
          · rw [hfold, if_pos hy, getD_concat_self]
          · rcases Nat.lt_succ_iff_lt_or_eq.mp (by simpa using hi) with hi' | hi'
            · rw [getD_concat_lt _ _ _ _ hi', getD_concat_self]
              exact le_trans (hle i hi') hy
            · subst hi'
              rw [getD_concat_self]
          · simp at hi
            omega
        · push_neg at hy
          refine ⟨h, ?_, by simp; omega, fun i hi => ?_, fun i hgt hi => ?_⟩
          · rw [hfold, if_neg (Nat.not_le.mpr hy), getD_concat_lt _ _ _ _ hlt]
          · rcases Nat.lt_succ_iff_lt_or_eq.mp (by simpa using hi) with hi' | hi'
            · rw [getD_concat_lt _ _ _ _ hi', getD_concat_lt _ _ _ _ hlt]
              exact hle i hi'
            · subst hi'
              rw [getD_concat_self, getD_concat_lt _ _ _ _ hlt]
              exact le_of_lt hy
          · rcases Nat.lt_succ_iff_lt_or_eq.mp (by simpa using hi) with hi' | hi'
            · rw [getD_concat_lt _ _ _ _ hi', getD_concat_lt _ _ _ _ hlt]
              exact hafter i hgt hi'
            · subst hi'
              rw [getD_concat_self, getD_concat_lt _ _ _ _ hlt]
              exact hy

/-- C2 (amended): for every non-empty usage history, peak_usage_hour is a
bucket index (< 24) attaining the maximum hourly total; when several hour
buckets tie for the maximum, the returned index is the HIGHEST tying hour
(Rust's `max_by_key` keeps the last maximal element), not the lowest. -/
theorem calculate_peak_usage_hour_spec (l : List UsageRecord) (hne : l ≠ []) :
    ∃ h, calculate_peak_usage_hour l = some h ∧ h < 24 ∧
      (∀ i, i < 24 → (hourly_usage l).getD i 0 ≤ (hourly_usage l).getD h 0) ∧
      (∀ i, h < i → i < 24 → (hourly_usage l).getD i 0 < (hourly_usage l).getD h 0) := by
  have hlen : (hourly_usage l).length = 24 := hourly_usage_length l
  have hne2 : hourly_usage l ≠ [] := by
    intro hcon
    rw [hcon] at hlen
    cases hlen
  obtain ⟨h, hmax, hlt, hle, hafter⟩ := max_by_key_enum_spec (hourly_usage l) hne2
  rw [hlen] at hlt
  refine ⟨h, ?_, hlt, fun i hi => hle i (by omega), fun i hgt hi => hafter i hgt (by omega)⟩
  unfold calculate_peak_usage_hour
  rw [if_neg (by simpa [List.isEmpty_iff] using hne), hmax]
  rfl

/-- C2 witness: a concrete two-record history (both records in hour 14)
satisfies the peak-hour characterization. -/
theorem calculate_peak_usage_hour_spec_witness :
    ([({ start_balance := 100, end_balance := 90, usage_amount := 10,
         duration_minutes := 5, timestamp := 50400 } : UsageRecord),
      ({ start_balance := 90, end_balance := 70, usage_amount := 20,
         duration_minutes := 5, timestamp := 52200 } : UsageRecord)]
        : List UsageRecord) ≠ [] ∧
    (∃ h, calculate_peak_usage_hour
        [{ start_balance := 100, end_balance := 90, usage_amount := 10,
           duration_minutes := 5, timestamp := 50400 },
         { start_balance := 90, end_balance := 70, usage_amount := 20,
           duration_minutes := 5, timestamp := 52200 }] = some h ∧ h < 24 ∧
      (∀ i, i < 24 →
        (hourly_usage
          [{ start_balance := 100, end_balance := 90, usage_amount := 10,
             duration_minutes := 5, timestamp := 50400 },
           { start_balance := 90, end_balance := 70, usage_amount := 20,
             duration_minutes := 5, timestamp := 52200 }]).getD i 0 ≤
        (hourly_usage
          [{ start_balance := 100, end_balance := 90, usage_amount := 10,
             duration_minutes := 5, timestamp := 50400 },
           { start_balance := 90, end_balance := 70, usage_amount := 20,
             duration_minutes := 5, timestamp := 52200 }]).getD h 0) ∧
      (∀ i, h < i → i < 24 →
        (hourly_usage
          [{ start_balance := 100, end_balance := 90, usage_amount := 10,
             duration_minutes := 5, timestamp := 50400 },
           { start_balance := 90, end_balance := 70, usage_amount := 20,
             duration_minutes := 5, timestamp := 52200 }]).getD i 0 <
        (hourly_usage
          [{ start_balance := 100, end_balance := 90, usage_amount := 10,
             duration_minutes := 5, timestamp := 50400 },
           { start_balance := 90, end_balance := 70, usage_amount := 20,
             duration_minutes := 5, timestamp := 52200 }]).getD h 0)) :=
  ⟨by decide,
   calculate_peak_usage_hour_spec
    [{ start_balance := 100, end_balance := 90, usage_amount := 10,
       duration_minutes := 5, timestamp := 50400 },
     { start_balance := 90, end_balance := 70, usage_amount := 20,
       duration_minutes := 5, timestamp := 52200 }] (by decide)⟩

/-- C2 counterexample: two hour buckets (hours 0 and 1) tie for the
maximum total, and `calculate_peak_usage_hour` returns hour 1, the HIGHEST
tying index, not the lowest as the claim states. -/
theorem calculate_peak_usage_hour_tie_counterexample :
    calculate_peak_usage_hour
      [{ start_balance := 10, end_balance := 5, usage_amount := 5,
         duration_minutes := 1, timestamp := 0 },
       { start_balance := 10, end_balance := 5, usage_amount := 5,
         duration_minutes := 1, timestamp := 3600 }] = some 1 ∧
    (hourly_usage
      [{ start_balance := 10, end_balance := 5, usage_amount := 5,
         duration_minutes := 1, timestamp := 0 },
       { start_balance := 10, end_balance := 5, usage_amount := 5,
         duration_minutes := 1, timestamp := 3600 }]).getD 0 0 = 5 ∧
    (hourly_usage
      [{ start_balance := 10, end_balance := 5, usage_amount := 5,
         duration_minutes := 1, timestamp := 0 },
       { start_balance := 10, end_balance := 5, usage_amount := 5,
         duration_minutes := 1, timestamp := 3600 }]).getD 1 0 = 5 ∧
    (∀ i, i < 24 → (hourly_usage
      [{ start_balance := 10, end_balance := 5, usage_amount := 5,
         duration_minutes := 1, timestamp := 0 },
       { start_balance := 10, end_balance := 5, usage_amount := 5,
         duration_minutes := 1, timestamp := 3600 }]).getD i 0 ≤ 5) ∧
    (0 : Nat) < 1 := by decide

/-- The loop of `calculate_trend` computes exactly the four regression sums
over the sequence index. -/
lemma trend_sums_eq (l : List BalanceRecord) :
    trend_sums l
      = (∑ i ∈ Finset.range l.length, (i : ℚ),
         ∑ i ∈ Finset.range l.length, (l.map fun r => (r.amount : ℚ)).getD i 0,
         ∑ i ∈ Finset.range l.length, (i : ℚ) * (l.map fun r => (r.amount : ℚ)).getD i 0,
         ∑ i ∈ Finset.range l.length, (i : ℚ) * (i : ℚ)) := by
  induction l using List.reverseRecOn with
  | nil => simp [trend_sums]
  | append_singleton t r ih =>
      have henum : (t ++ [r]).enum = t.enum ++ [(t.length, r)] := by
        simp [List.enum_append]
      have hgext : ∀ i, i < t.length →
          ((t ++ [r]).map fun x => (x.amount : ℚ)).getD i 0
            = (t.map fun x => (x.amount : ℚ)).getD i 0 := by
        intro i hi
        rw [List.map_append]
        exact getD_concat_lt _ _ _ _ (by simpa using hi)
      have hgtop : ((t ++ [r]).map fun x => (x.amount : ℚ)).getD t.length 0
          = (r.amount : ℚ) := by
        rw [List.map_append]
        have h := getD_concat_self (t.map fun x => (x.amount : ℚ)) (r.amount : ℚ) 0
        simpa using h
      unfold trend_sums at ih ⊢
      rw [henum, List.foldl_append, ih, List.foldl_cons, List.foldl_nil]
      dsimp only
      simp only [List.length_append, List.length_singleton]
      refine Prod.ext ?_ (Prod.ext ?_ (Prod.ext ?_ ?_))
      · dsimp only
        rw [Finset.sum_range_succ]
      · dsimp only
        rw [Finset.sum_range_succ, hgtop]
        have hsum : ∑ i ∈ Finset.range t.length,
              ((t ++ [r]).map fun x => (x.amount : ℚ)).getD i 0
            = ∑ i ∈ Finset.range t.length,
              (t.map fun x => (x.amount : ℚ)).getD i 0 :=
          Finset.sum_congr rfl fun i hi => hgext i (Finset.mem_range.mp hi)
        rw [hsum]
      · dsimp only
        rw [Finset.sum_range_succ, hgtop]
        have hsum : ∑ i ∈ Finset.range t.length,
              (i : ℚ) * ((t ++ [r]).map fun x => (x.amount : ℚ)).getD i 0
            = ∑ i ∈ Finset.range t.length,
              (i : ℚ) * (t.map fun x => (x.amount : ℚ)).getD i 0 :=
          Finset.sum_congr rfl fun i hi => by rw [hgext i (Finset.mem_range.mp hi)]
        rw [hsum]
      · dsimp only
        rw [Finset.sum_range_succ]

/-- `calculate_trend` with ≥ 3 snapshots is the classification of the
ordinary-least-squares slope. -/
lemma calculate_trend_eq_classify (l : List BalanceRecord) (h3 : 3 ≤ l.length) :
    calculate_trend l = trend_classify (olsSlope (l.map fun r => (r.amount : ℚ))) := by
  unfold calculate_trend trend_classify olsSlope
  rw [if_neg (by omega), trend_sums_eq]
  simp only [List.length_map]

lemma sum_range_cast_rat (n : Nat) :
    ∑ i ∈ Finset.range n, (i : ℚ) = n * (n - 1) / 2 := by
  induction n with
  | zero => simp
  | succ m ih =>
      rw [Finset.sum_range_succ, ih]
      push_cast
      ring

lemma sum_range_sq_cast_rat (n : Nat) :
    ∑ i ∈ Finset.range n, (i : ℚ) * (i : ℚ) = n * (n - 1) * (2 * n - 1) / 6 := by
  induction n with
  | zero => simp
  | succ m ih =>
      rw [Finset.sum_range_succ, ih]
      push_cast
      ring

/-- The regression denominator `n·Σx² − (Σx)²` is positive once n ≥ 3. -/
lemma regression_denom_pos (n : Nat) (h3 : 3 ≤ n) :
    0 < (n : ℚ) * (∑ i ∈ Finset.range n, (i : ℚ) * (i : ℚ))
        - (∑ i ∈ Finset.range n, (i : ℚ)) * (∑ i ∈ Finset.range n, (i : ℚ)) := by
  have hn : (3 : ℚ) ≤ (n : ℚ) := by exact_mod_cast h3
  have hD : (n : ℚ) * (∑ i ∈ Finset.range n, (i : ℚ) * (i : ℚ))
        - (∑ i ∈ Finset.range n, (i : ℚ)) * (∑ i ∈ Finset.range n, (i : ℚ))
      = (n : ℚ) ^ 2 * ((n : ℚ) - 1) * ((n : ℚ) + 1) / 12 := by
    rw [sum_range_cast_rat, sum_range_sq_cast_rat]
    ring
  rw [hD]
  have h1 : 0 < (n : ℚ) := by linarith
  have h2 : 0 < (n : ℚ) - 1 := by linarith
  have h4 : 0 < (n : ℚ) + 1 := by linarith
  exact div_pos (mul_pos (mul_pos (pow_pos h1 2) h2) h4) (by norm_num)

/-- The OLS slope of an exact arithmetic series a, a+d, a+2d, … is d. -/
lemma olsSlope_arith (n : Nat) (a d : ℚ) (h3 : 3 ≤ n) :
    olsSlope ((List.range n).map fun i : Nat => a + d * (i : ℚ)) = d := by
  unfold olsSlope
  have hget : ∀ i ∈ Finset.range n,
      ((List.range n).map fun i : Nat => a + d * (i : ℚ)).getD i 0
        = a + d * (i : ℚ) := by
    intro i hi
    rw [List.getD_eq_getElem?_getD, List.getElem?_map,
      List.getElem?_range (Finset.mem_range.mp hi)]
    rfl
  simp only [List.length_map, List.length_range]
  rw [Finset.sum_congr rfl hget,
    Finset.sum_congr rfl (fun i hi => by rw [hget i hi] :
      ∀ i ∈ Finset.range n,
        (i : ℚ) * ((List.range n).map fun i : Nat => a + d * (i : ℚ)).getD i 0
          = (i : ℚ) * (a + d * (i : ℚ)))]
  have hsy : ∑ i ∈ Finset.range n, (a + d * (i : ℚ))
      = n * a + d * ∑ i ∈ Finset.range n, (i : ℚ) := by
    rw [Finset.sum_add_distrib, Finset.sum_const, Finset.card_range, ← Finset.mul_sum]
    simp [nsmul_eq_mul]
  have hsxy : ∑ i ∈ Finset.range n, (i : ℚ) * (a + d * (i : ℚ))
      = a * (∑ i ∈ Finset.range n, (i : ℚ))
        + d * ∑ i ∈ Finset.range n, (i : ℚ) * (i : ℚ) := by
    have hterm : ∀ i ∈ Finset.range n, (i : ℚ) * (a + d * (i : ℚ))
        = a * (i : ℚ) + d * ((i : ℚ) * (i : ℚ)) := fun i _ => by ring
    rw [Finset.sum_congr rfl hterm, Finset.sum_add_distrib,
      ← Finset.mul_sum, ← Finset.mul_sum]
  rw [hsy, hsxy]
  have hD := regression_denom_pos n h3
  have hnum : (n : ℚ) * (a * (∑ i ∈ Finset.range n, (i : ℚ))
        + d * ∑ i ∈ Finset.range n, (i : ℚ) * (i : ℚ))
      - (∑ i ∈ Finset.range n, (i : ℚ))
        * ((n : ℚ) * a + d * ∑ i ∈ Finset.range n, (i : ℚ))
      = d * ((n : ℚ) * (∑ i ∈ Finset.range n, (i : ℚ) * (i : ℚ))
          - (∑ i ∈ Finset.range n, (i : ℚ)) * (∑ i ∈ Finset.range n, (i : ℚ))) := by
    ring
  rw [hnum, mul_div_assoc, div_self (ne_of_gt hD), mul_one]

/-- C6: fewer than 3 snapshots give Insufficient; with ≥ 3 snapshots the
trend is the classification of the OLS slope of amount against sequence
index (< −1 ⇒ Increasing, > 1 ⇒ Decreasing, else Stable); a constant
+5-per-step series is Decreasing, −5 per step is Increasing, constant is
Stable. -/
theorem calculate_trend_spec :
    (∀ l : List BalanceRecord, l.length < 3 →
        calculate_trend l = UsageTrend.Insufficient) ∧
    (∀ l : List BalanceRecord, 3 ≤ l.length →
        calculate_trend l
          = trend_classify (olsSlope (l.map fun r => (r.amount : ℚ)))) ∧
    (∀ (a n : Nat) (ts : Nat → Nat), 3 ≤ n →
        calculate_trend ((List.range n).map fun i : Nat =>
          ({ amount := a + 5 * i, timestamp := ts i } : BalanceRecord))
          = UsageTrend.Decreasing) ∧
    (∀ (a n : Nat) (ts : Nat → Nat), 3 ≤ n →
        calculate_trend ((List.range n).map fun i : Nat =>
          ({ amount := a + 5 * (n - 1 - i), timestamp := ts i } : BalanceRecord))
          = UsageTrend.Increasing) ∧
    (∀ (a n : Nat) (ts : Nat → Nat), 3 ≤ n →
        calculate_trend ((List.range n).map fun i : Nat =>
          ({ amount := a, timestamp := ts i } : BalanceRecord))
          = UsageTrend.Stable) := by
  refine ⟨fun l hl => ?_, fun l h3 => calculate_trend_eq_classify l h3,
    fun a n ts h3 => ?_, fun a n ts h3 => ?_, fun a n ts h3 => ?_⟩
  · unfold calculate_trend
    rw [if_pos hl]
  · rw [calculate_trend_eq_classify _ (by simpa using h3)]
    have hmap : ((List.range n).map fun i : Nat =>
          ({ amount := a + 5 * i, timestamp := ts i } : BalanceRecord)).map
            (fun r => (r.amount : ℚ))
        = (List.range n).map fun i : Nat => (a : ℚ) + 5 * (i : ℚ) := by
      rw [List.map_map]
      refine List.map_congr_left fun i _ => ?_
      simp only [Function.comp]
      push_cast
      ring
    rw [hmap, olsSlope_arith n (a : ℚ) 5 h3]
    norm_num [trend_classify]
  · rw [calculate_trend_eq_classify _ (by simpa using h3)]
    have hmap : ((List.range n).map fun i : Nat =>
          ({ amount := a + 5 * (n - 1 - i), timestamp := ts i } : BalanceRecord)).map
            (fun r => (r.amount : ℚ))
        = (List.range n).map fun i : Nat =>
            ((a : ℚ) + 5 * ((n : ℚ) - 1)) + (-5) * (i : ℚ) := by
      rw [List.map_map]
      refine List.map_congr_left fun i hi => ?_
      have hi' : i < n := List.mem_range.mp hi
      have h1 : (1 : Nat) ≤ n := by omega
      have h2 : i ≤ n - 1 := by omega
      simp only [Function.comp]
      push_cast [Nat.cast_sub h2, Nat.cast_sub h1]
      ring
    rw [hmap, olsSlope_arith n ((a : ℚ) + 5 * ((n : ℚ) - 1)) (-5) h3]
    norm_num [trend_classify]
  · rw [calculate_trend_eq_classify _ (by simpa using h3)]
    have hmap : ((List.range n).map fun i : Nat =>
          ({ amount := a, timestamp := ts i } : BalanceRecord)).map
            (fun r => (r.amount : ℚ))
        = (List.range n).map fun i : Nat => (a : ℚ) + 0 * (i : ℚ) := by
      rw [List.map_map]
      refine List.map_congr_left fun i _ => ?_
      simp only [Function.comp]
      ring
    rw [hmap, olsSlope_arith n (a : ℚ) 0 h3]
    norm_num [trend_classify]

/-- C6 witness: the concrete series 0, 5, 10 (slope +5 per step, three
points) is classified Decreasing. -/
theorem calculate_trend_spec_witness :
    3 ≤ 3 ∧
    calculate_trend ((List.range 3).map fun i : Nat =>
        ({ amount := 0 + 5 * i, timestamp := (fun _ : Nat => 0) i } : BalanceRecord))
      = UsageTrend.Decreasing :=
  ⟨by decide, calculate_trend_spec.2.2.1 0 3 (fun _ => 0) (by decide)⟩

/-- Once some usage rate survives the duration filter, the score is the
clamped coefficient-of-variation formula (the final `.max(0.0)` never
bites, because `cv.min(1.0) ≤ 1`). -/
lemma efficiency_score_formula (h : List UsageRecord)
    (hr : usage_rates h ≠ []) :
    calculate_efficiency_score h
      = (1 - min (coefficient_of_variation h) 1) * 100 := by
  have hne : h ≠ [] := by
    intro hcon
    subst hcon
    exact hr rfl
  have hie : h.isEmpty = false := by
    simpa [List.isEmpty_iff] using hne
  have hre : (usage_rates h).isEmpty = false := by
    simpa [List.isEmpty_iff] using hr
  have hnn : 0 ≤ 1 - min (coefficient_of_variation h) 1 := by
    have := min_le_right (coefficient_of_variation h) 1
    linarith
  unfold calculate_efficiency_score
  simp only [hie, hre, Bool.false_eq_true, if_false]
  rw [max_eq_left hnn]

/-- C5: the efficiency score is (1 − min(1, stdev/mean of per-record
rates)) × 100; uniform positive rates give 100, coefficient of variation
≥ 1 gives 0, an empty history gives 0, and a non-positive mean is treated
as coefficient of variation 1, giving 0. -/
theorem calculate_efficiency_score_spec :
    (calculate_efficiency_score [] = 0) ∧
    (∀ h : List UsageRecord, usage_rates h ≠ [] →
        calculate_efficiency_score h
          = (1 - min (coefficient_of_variation h) 1) * 100) ∧
    (∀ (h : List UsageRecord) (c : ℝ), h ≠ [] → 0 < c →
        (∀ r ∈ h, 0 < r.duration_minutes) →
        (∀ r ∈ h, (r.usage_amount : ℝ) / (r.duration_minutes : ℝ) = c) →
        calculate_efficiency_score h = 100) ∧
    (∀ h : List UsageRecord, usage_rates h ≠ [] →
        1 ≤ coefficient_of_variation h → calculate_efficiency_score h = 0) ∧
    (∀ h : List UsageRecord, usage_rates h ≠ [] →
        rates_mean h ≤ 0 → calculate_efficiency_score h = 0) := by
  have hformula := efficiency_score_formula
  refine ⟨rfl, fun h hr => hformula h hr, ?_, ?_, ?_⟩
  · intro h c hne hcpos hdur hc
    have hfil : h.filter (fun r => 0 < r.duration_minutes) = h :=
      List.filter_eq_self.mpr (fun a ha => by simpa using hdur a ha)
    have hrates : usage_rates h
        = h.map (fun r => (r.usage_amount : ℝ) / (r.duration_minutes : ℝ)) := by
      unfold usage_rates
      rw [hfil]
    have hmemc : ∀ x ∈ usage_rates h, x = c := by
      intro x hx
      rw [hrates] at hx
      obtain ⟨r, hrmem, rfl⟩ := List.mem_map.mp hx
      exact hc r hrmem
    have hlen : (usage_rates h).length = h.length := by
      rw [hrates, List.length_map]
    have hlenpos : 0 < (usage_rates h).length := by
      rw [hlen]
      exact List.length_pos.mpr hne
    have hn0 : ((usage_rates h).length : ℝ) ≠ 0 :=
      Nat.cast_ne_zero.mpr (by omega)
    have hrne : usage_rates h ≠ [] := by
      intro hcon
      rw [hcon] at hlenpos
      simp at hlenpos
    have hrep : usage_rates h = List.replicate (usage_rates h).length c :=
      List.eq_replicate_iff.mpr ⟨rfl, hmemc⟩
    have hmean : rates_mean h = c := by
      unfold rates_mean
      rw [hrep]
      simp only [List.sum_replicate, List.length_replicate, nsmul_eq_mul]
      exact mul_div_cancel_left₀ c hn0
    have hvar : rates_variance h = 0 := by
      unfold rates_variance
      rw [hmean]
      have hmap : (usage_rates h).map (fun rate => (rate - c) ^ 2)
          = List.replicate (usage_rates h).length 0 := by
        rw [hrep, List.map_replicate]
        simp
      rw [hmap]
      simp
    have hcv : coefficient_of_variation h = 0 := by
      unfold coefficient_of_variation
      rw [hvar, hmean, if_pos hcpos]
      simp
    rw [hformula h hrne, hcv]
    norm_num
  · intro h hr hcv
    rw [hformula h hr, min_eq_right hcv]
    norm_num
  · intro h hr hm
    have hcv : coefficient_of_variation h = 1 := by
      unfold coefficient_of_variation
      rw [if_neg (not_lt.mpr hm)]
    rw [hformula h hr, hcv, min_self]
    norm_num

/-- C5 witness: two records, both at rate 2 credits per minute, give
efficiency score 100. -/
theorem calculate_efficiency_score_spec_witness :
    (([({ start_balance := 10, end_balance := 8, usage_amount := 2,
          duration_minutes := 1, timestamp := 0 } : UsageRecord),
       ({ start_balance := 8, end_balance := 6, usage_amount := 2,
          duration_minutes := 1, timestamp := 60 } : UsageRecord)]
         : List UsageRecord) ≠ [] ∧ (0 : ℝ) < 2) ∧
    calculate_efficiency_score
      [{ start_balance := 10, end_balance := 8, usage_amount := 2,
         duration_minutes := 1, timestamp := 0 },
       { start_balance := 8, end_balance := 6, usage_amount := 2,
         duration_minutes := 1, timestamp := 60 }] = 100 :=
  ⟨⟨by decide, zero_lt_two⟩,
   calculate_efficiency_score_spec.2.2.1
     [{ start_balance := 10, end_balance := 8, usage_amount := 2,
        duration_minutes := 1, timestamp := 0 },
      { start_balance := 8, end_balance := 6, usage_amount := 2,
        duration_minutes := 1, timestamp := 60 }] 2
     (by decide) zero_lt_two (by decide)
     (by simp [List.forall_mem_cons])⟩

lemma findSome?_mem {α β : Type} (f : α → Option β) (l : List α) (b : β)
    (h : l.findSome? f = some b) : ∃ a, a ∈ l ∧ f a = some b := by
  induction l with
  | nil => simp at h
  | cons x xs ih =>
      rw [List.findSome?_cons] at h
      cases hfx : f x with
      | some c =>
          simp only [hfx] at h
          have hcb : c = b := by simpa using h
          exact ⟨x, List.mem_cons_self x xs, by rw [hfx, hcb]⟩
      | none =>
          simp only [hfx] at h
          obtain ⟨a, ha, hfa⟩ := ih h
          exact ⟨a, List.mem_cons_of_mem x ha, hfa⟩

/-- Anything the generic-pattern loop of `extract_number_from_text`
returns has passed the sanity bound. -/
lemma sanity_filtered_first_le (pattern : RE) (text : List Char) (n : Nat)
    (h : sanity_filtered_first pattern text = some n) : n ≤ 1000000 := by
  unfold sanity_filtered_first at h
  obtain ⟨cap, hmem, hcap⟩ := findSome?_mem _ _ _ h
  cases hp : parse_number_string cap with
  | none =>
      rw [hp] at hcap
      simp at hcap
  | some m =>
      rw [hp] at hcap
      simp only [Option.some_bind] at hcap
      split at hcap
      · have hmn : m = n := by simpa using hcap
        omega
      · cases hcap

/-- C3 (amended): the example text parses to 2666 and label-free text
yields no match, and the sanity bound [0, 1_000_000] governs the two
generic numeric patterns — so a bare 5,000,000 is rejected — but NOT the
orb-specific patterns: a value matched by an orb pattern is returned
unbounded, e.g. 5,000,000 with the orb label text. -/
theorem extract_number_from_text_spec :
    extract_number_from_text ("Credit balance: 2,666 User Messages".toList)
      = some 2666 ∧
    extract_number_from_text ("no credits here".toList) = none ∧
    extract_number_from_text ("5,000,000".toList) = none ∧
    extract_number_from_text ("Credit balance: 5,000,000 User Messages".toList)
      = some 5000000 ∧
    (∀ (text : List Char) (n : Nat),
        extract_orb_balance_pattern text = none →
        extract_number_from_text text = some n → n ≤ 1000000) := by
  refine ⟨by decide, by decide, by decide, by decide, ?_⟩
  intro text n horb h
  unfold extract_number_from_text at h
  simp only [horb] at h
  cases h1 : sanity_filtered_first numberPattern1 text with
  | some m =>
      simp only [h1] at h
      have hmn : m = n := by simpa using h
      exact hmn ▸ sanity_filtered_first_le _ _ _ h1
  | none =>
      simp only [h1] at h
      exact sanity_filtered_first_le _ _ _ h

/-- C3 witness: on "1,234" no orb pattern matches, the generic path
returns 1234, and the bound holds. -/
theorem extract_number_from_text_spec_witness :
    (extract_orb_balance_pattern ("1,234".toList) = none ∧
     extract_number_from_text ("1,234".toList) = some 1234) ∧
    1234 ≤ 1000000 :=
  ⟨⟨by decide, by decide⟩,
   extract_number_from_text_spec.2.2.2.2 ("1,234".toList) 1234
     (by decide) (by decide)⟩

/-- C3 counterexample: the claim says a parsed value of 5,000,000 is
rejected by the sanity bound regardless of which parsing strategy matched
it; the orb-pattern strategy applies no bound and returns 5,000,000. -/
theorem extract_number_sanity_bound_counterexample :
    extract_number_from_text
        ("Credit balance: 5,000,000 User Messages".toList) = some 5000000 ∧
    ¬ (5000000 ≤ 1000000) := ⟨by decide, by decide⟩

end CreditMonitor
